import Mathlib

/-!
Verification of the renegade-dealer SPDZ offline-phase trusted dealer.

Shallow embedding of the Rust sources:

* `src/renegade-dealer-api/src/lib.rs` — request/response data model
  (`DealerRequest`, `DealerResponse`, `total_values`);
* `src/renegade-dealer/src/dealer.rs` — the pairing engine
  (`Dealer::handle_request` over the open-requests map) and the correlated
  randomness generators (`handle_ready_pair`, `gen_random_bits`,
  `gen_random_values`, `gen_input_masks`, `gen_inverse_pairs`, `gen_triples`,
  `gen_authenticated_secret_shares`, `gen_secret_shares`, `compute_macs`,
  `collect_shares`);
* `src/renegade-dealer/src/main.rs` — the admission layer (`validate_request`,
  `handle_req`, `MAX_REQUEST_SIZE`).

Modelling conventions:

* The BN254 scalar field `Scalar` is modelled as an arbitrary decidable field
  `F`; every algebraic step of the source is field algebra, and concrete
  witnesses instantiate `F := ZMod 5`.
* Every call to `thread_rng` is modelled by an explicit randomness tape
  (`PairRandomness`): drawing `n` values from a stream is `List.take n`.
* `Scalar::inverse` (ark) unwraps an `Option` and panics on zero; the model
  returns `none` from `gen_inverse_pairs` exactly when a sampled value is
  zero, so a `some` result corresponds to a run in which no panic occurred.
* A panic inside the pairing handler unwinds while the `open_requests` mutex
  guard is live, which poisons the mutex; the model records this in the
  `poisoned` flag of `DealerState`, and every later `lock().unwrap()` call
  panics (`DealerOutcome.lockPanic`) without touching the map.
* Response channels are modelled by the `DealerOutcome` of each
  `handle_request` call: `paired r1 r2` means `r1` was sent on the stored
  (first-arrived) job's channel and `r2` on the incoming job's channel.
* Rust `u32` counts are modelled as `Nat` with wrapping (release-mode)
  addition `u32add` for `total_values`.
* ECDSA signature verification (`k256`, an external library call) is
  abstracted by a boolean `sig_valid` argument to `validate_request`.
-/

namespace RenegadeDealer

/-- Maximum number of values that may be requested at once by a pair
(`MAX_REQUEST_SIZE` in main.rs). -/
def MAX_REQUEST_SIZE : Nat := 1500000

/-- The modulus of Rust `u32` arithmetic. -/
def U32 : Nat := 4294967296

/-- Wrapping (release-mode) `u32` addition. -/
def u32add (a b : Nat) : Nat := (a + b) % U32

/-- Model of `DealerRequest` (renegade-dealer-api): five `u32` counts plus two public
keys. The SEC1-encoded `k256` public keys are opaque to the dealer core
(only compared for equality and handed to the signature verifier), so they
are abstracted as natural numbers. -/
structure DealerRequest where
  first_party_key : Nat
  second_party_key : Nat
  n_random_bits : Nat
  n_random_values : Nat
  n_input_masks : Nat
  n_inverse_pairs : Nat
  n_triples : Nat
deriving DecidableEq

/-- Model of `DealerRequest::total_values`: the sum of the five counts, each `+`
being a `u32` addition. -/
def total_values (r : DealerRequest) : Nat :=
  u32add (u32add (u32add (u32add r.n_random_bits r.n_random_values) r.n_input_masks)
    r.n_inverse_pairs) r.n_triples

/-- Model of `ScalarShare::new(value, mac)`: an authenticated additive secret share. -/
structure ScalarShare (F : Type) where
  share : F
  mac : F
deriving DecidableEq

/-- Model of `DealerResponse` (renegade-dealer-api): one party's half of the generated
correlated randomness. `input_masks` holds, in order, the cleartext mask
values, the shares of those values, and the shares of the counterparty's
masks; `inverse_pairs` holds the two parallel vectors `r` and `r⁻¹`;
`beaver_triples` holds the three parallel vectors `a`, `b`, `c`. -/
structure DealerResponse (F : Type) where
  mac_key_share : F
  random_bits : List (ScalarShare F)
  random_values : List (ScalarShare F)
  input_masks : List F × List (ScalarShare F) × List (ScalarShare F)
  inverse_pairs : List (ScalarShare F) × List (ScalarShare F)
  beaver_triples : List (ScalarShare F) × List (ScalarShare F) × List (ScalarShare F)
deriving DecidableEq

variable {F : Type} [Field F] [DecidableEq F]

/-- The all-empty `DealerResponse` (`Default::default()` with a zero mac key
share), used only as the default of `Option.getD` in concrete witnesses. -/
def emptyResponse : DealerResponse F :=
  ⟨0, [], [], ([], [], []), ([], []), ([], [], [])⟩

/-- Model of `Dealer::compute_macs`: the mac of each value is `value * mac_key`. -/
def compute_macs (mac_key : F) (values : List F) : List F :=
  values.map (fun v => v * mac_key)

/-- Model of `Dealer::gen_secret_shares`: for each value a uniform draw `r` is taken
from the tape; party 1 receives `r` and party 2 receives `value - r`. -/
def gen_secret_shares (values rand : List F) : List F × List F :=
  (List.zipWith (fun _ r => r) values rand,
   List.zipWith (fun v r => v - r) values rand)

/-- Model of `Dealer::collect_shares`: zip a vector of value shares with a vector of
mac shares into `ScalarShare`s. -/
def collect_shares (values macs : List F) : List (ScalarShare F) :=
  List.zipWith (fun v m => ⟨v, m⟩) values macs

/-- Model of `Dealer::gen_authenticated_secret_shares`: secret-share the values and
their macs, then collect both parties' `ScalarShare` vectors. `vrand` and
`mrand` are the tapes of the two `gen_secret_shares` calls. -/
def gen_authenticated_secret_shares (mac_key : F) (values vrand mrand : List F) :
    List (ScalarShare F) × List (ScalarShare F) :=
  (collect_shares (gen_secret_shares values vrand).1
      (gen_secret_shares (compute_macs mac_key values) mrand).1,
   collect_shares (gen_secret_shares values vrand).2
      (gen_secret_shares (compute_macs mac_key values) mrand).2)

/-- Model of `Dealer::gen_random_bits`: draw `n` fair coins, embed them as the scalars
`0` / `1`, and share-build. -/
def gen_random_bits (n : Nat) (mac_key : F) (draws : List Bool) (vrand mrand : List F) :
    List (ScalarShare F) × List (ScalarShare F) :=
  gen_authenticated_secret_shares mac_key
    ((draws.take n).map (fun b => if b then (1 : F) else 0)) vrand mrand

/-- Model of `Dealer::gen_random_values`: draw `n` uniform scalars and share-build. -/
def gen_random_values (n : Nat) (mac_key : F) (draws vrand mrand : List F) :
    List (ScalarShare F) × List (ScalarShare F) :=
  gen_authenticated_secret_shares mac_key (draws.take n) vrand mrand

/-- Model of `Dealer::gen_input_masks`: draw two independent mask vectors and
share-build each. Party 1 receives `(masks1, shares1(masks1), shares1(masks2))`
and party 2 receives `(masks2, shares2(masks2), shares2(masks1))`. -/
def gen_input_masks (n : Nat) (mac_key : F)
    (draws1 draws2 vrand1 mrand1 vrand2 mrand2 : List F) :
    (List F × List (ScalarShare F) × List (ScalarShare F))
      × (List F × List (ScalarShare F) × List (ScalarShare F)) :=
  ((draws1.take n,
    (gen_authenticated_secret_shares mac_key (draws1.take n) vrand1 mrand1).1,
    (gen_authenticated_secret_shares mac_key (draws2.take n) vrand2 mrand2).1),
   (draws2.take n,
    (gen_authenticated_secret_shares mac_key (draws2.take n) vrand2 mrand2).2,
    (gen_authenticated_secret_shares mac_key (draws1.take n) vrand1 mrand1).2))

/-- Model of `Dealer::gen_inverse_pairs`: draw `n` uniform scalars `r`, compute
`r⁻¹`, and share-build both vectors. The ark `Scalar::inverse` call unwraps
an `Option` and panics when a drawn value is zero; the model returns `none`
in exactly that case. -/
def gen_inverse_pairs (n : Nat) (mac_key : F)
    (draws vrand mrand vrandInv mrandInv : List F) :
    Option ((List (ScalarShare F) × List (ScalarShare F))
      × (List (ScalarShare F) × List (ScalarShare F))) :=
  if (draws.take n).any (fun x => decide (x = 0)) then none
  else
    some
      (((gen_authenticated_secret_shares mac_key (draws.take n) vrand mrand).1,
        (gen_authenticated_secret_shares mac_key
          ((draws.take n).map (fun x => x⁻¹)) vrandInv mrandInv).1),
       ((gen_authenticated_secret_shares mac_key (draws.take n) vrand mrand).2,
        (gen_authenticated_secret_shares mac_key
          ((draws.take n).map (fun x => x⁻¹)) vrandInv mrandInv).2))

/-- Model of `Dealer::gen_triples`: draw uniform vectors `a`, `b`, set
`c[i] = a[i] * b[i]`, and share-build all three vectors. -/
def gen_triples (n : Nat) (mac_key : F)
    (drawsA drawsB vrandA mrandA vrandB mrandB vrandC mrandC : List F) :
    (List (ScalarShare F) × List (ScalarShare F) × List (ScalarShare F))
      × (List (ScalarShare F) × List (ScalarShare F) × List (ScalarShare F)) :=
  (((gen_authenticated_secret_shares mac_key (drawsA.take n) vrandA mrandA).1,
    (gen_authenticated_secret_shares mac_key (drawsB.take n) vrandB mrandB).1,
    (gen_authenticated_secret_shares mac_key
      (List.zipWith (fun a b => a * b) (drawsA.take n) (drawsB.take n)) vrandC mrandC).1),
   ((gen_authenticated_secret_shares mac_key (drawsA.take n) vrandA mrandA).2,
    (gen_authenticated_secret_shares mac_key (drawsB.take n) vrandB mrandB).2,
    (gen_authenticated_secret_shares mac_key
      (List.zipWith (fun a b => a * b) (drawsA.take n) (drawsB.take n)) vrandC mrandC).2))

/-- The randomness tape consumed by `Dealer::handle_ready_pair`: the mac key
and its first share, plus one stream per `thread_rng` draw site of the five
generators. -/
structure PairRandomness (F : Type) where
  mac_key : F
  mac_share1 : F
  bitDraws : List Bool
  bitV : List F
  bitM : List F
  valDraws : List F
  valV : List F
  valM : List F
  mask1Draws : List F
  mask2Draws : List F
  mask1V : List F
  mask1M : List F
  mask2V : List F
  mask2M : List F
  invDraws : List F
  invV : List F
  invM : List F
  invInvV : List F
  invInvM : List F
  tripADraws : List F
  tripBDraws : List F
  tripAV : List F
  tripAM : List F
  tripBV : List F
  tripBM : List F
  tripCV : List F
  tripCM : List F
deriving DecidableEq

/-- Model of `Dealer::handle_ready_pair`: split the mac key additively, run the five
generators against two fresh responses, and return the pair of responses
(first component for the first-arrived job's channel). Returns `none` when
inverse-pair generation panics on a zero draw. -/
def handle_ready_pair (req : DealerRequest) (ρ : PairRandomness F) :
    Option (DealerResponse F × DealerResponse F) :=
  match gen_inverse_pairs req.n_inverse_pairs ρ.mac_key ρ.invDraws ρ.invV ρ.invM
      ρ.invInvV ρ.invInvM with
  | none => none
  | some invp =>
    some
      ({ mac_key_share := ρ.mac_share1,
         random_bits :=
           (gen_random_bits req.n_random_bits ρ.mac_key ρ.bitDraws ρ.bitV ρ.bitM).1,
         random_values :=
           (gen_random_values req.n_random_values ρ.mac_key ρ.valDraws ρ.valV ρ.valM).1,
         input_masks :=
           (gen_input_masks req.n_input_masks ρ.mac_key ρ.mask1Draws ρ.mask2Draws
             ρ.mask1V ρ.mask1M ρ.mask2V ρ.mask2M).1,
         inverse_pairs := invp.1,
         beaver_triples :=
           (gen_triples req.n_triples ρ.mac_key ρ.tripADraws ρ.tripBDraws
             ρ.tripAV ρ.tripAM ρ.tripBV ρ.tripBM ρ.tripCV ρ.tripCM).1 },
       { mac_key_share := ρ.mac_key - ρ.mac_share1,
         random_bits :=
           (gen_random_bits req.n_random_bits ρ.mac_key ρ.bitDraws ρ.bitV ρ.bitM).2,
         random_values :=
           (gen_random_values req.n_random_values ρ.mac_key ρ.valDraws ρ.valV ρ.valM).2,
         input_masks :=
           (gen_input_masks req.n_input_masks ρ.mac_key ρ.mask1Draws ρ.mask2Draws
             ρ.mask1V ρ.mask1M ρ.mask2V ρ.mask2M).2,
         inverse_pairs := invp.2,
         beaver_triples :=
           (gen_triples req.n_triples ρ.mac_key ρ.tripADraws ρ.tripBDraws
             ρ.tripAV ρ.tripAM ρ.tripBV ρ.tripBM ρ.tripCV ρ.tripCM).2 })

/-- Model of `DealerJob` (dealer.rs) without its response channel: channel delivery is
recorded in `DealerOutcome` instead. -/
structure DealerJobM where
  request_id : Nat
  party_id : Nat
  request : DealerRequest
deriving DecidableEq

/-- The state of the `Dealer`: the open-requests map (association list with
unique keys, modelling the `HashMap`) together with the poison flag of its
`Mutex` (set when a handler panics while holding the lock). -/
structure DealerState where
  poisoned : Bool
  open_requests : List (Nat × DealerJobM)
deriving DecidableEq

/-- Lookup (`HashMap::get` style) in the open-requests map. -/
def lookupReq (m : List (Nat × DealerJobM)) (k : Nat) : Option DealerJobM :=
  (m.find? (fun p => decide (p.1 = k))).map (fun p => p.2)

/-- Removal (`HashMap::remove`): drop the entry with the given key. -/
def eraseReq (m : List (Nat × DealerJobM)) (k : Nat) : List (Nat × DealerJobM) :=
  m.filter (fun p => ! decide (p.1 = k))

/-- Insertion (`HashMap::insert`) for a key known to be absent. -/
def insertReq (m : List (Nat × DealerJobM)) (k : Nat) (j : DealerJobM) :
    List (Nat × DealerJobM) :=
  (k, j) :: m

/-- Membership test (`HashMap::contains_key`). -/
def containsReq (m : List (Nat × DealerJobM)) (k : Nat) : Bool :=
  m.any (fun p => decide (p.1 = k))

/-- What a single `Dealer::handle_request` call delivered on the response
channels: `inserted` (first arrival, nothing sent yet); `lockPanic`
(`lock().unwrap()` panicked on a poisoned mutex); `mismatchPanic`
(`assert_eq!` on unequal request bodies panicked — nothing sent on either
channel); `duplicatePartyErr` (`BadRequest("Duplicate party ID")` sent on
both channels); `genPanic` (generation panicked on a zero inverse draw);
`paired r1 r2` (`Ok r1` sent to the stored first-arrived job, `Ok r2` to the
incoming job). -/
inductive DealerOutcome (F : Type) where
  | inserted
  | lockPanic
  | mismatchPanic
  | duplicatePartyErr
  | genPanic
  | paired (respToFirst respToSecond : DealerResponse F)
deriving DecidableEq

/-- Model of `Dealer::handle_request`: look up the request ID; on first arrival insert
the job; on a counterpart arrival remove the stored job, `assert_eq!` the two
request bodies (panic — and poison the mutex — on mismatch), reject duplicate
party IDs on both channels, and otherwise run `handle_ready_pair` (whose own
panic also poisons the mutex). `ρ` is the randomness tape consumed if this
call completes a pair. -/
def handle_request (st : DealerState) (j : DealerJobM) (ρ : PairRandomness F) :
    DealerState × DealerOutcome F :=
  if st.poisoned then (st, .lockPanic)
  else
    match lookupReq st.open_requests j.request_id with
    | some existing =>
      let m := eraseReq st.open_requests j.request_id
      if existing.request = j.request then
        if existing.party_id = j.party_id then (⟨false, m⟩, .duplicatePartyErr)
        else
          match handle_ready_pair existing.request ρ with
          | some (r1, r2) => (⟨false, m⟩, .paired r1 r2)
          | none => (⟨true, m⟩, .genPanic)
      else (⟨true, m⟩, .mismatchPanic)
    | none => (⟨st.poisoned, insertReq st.open_requests j.request_id j⟩, .inserted)

/-- One step of the dealer's main loop: state update of `handle_request`. -/
def dealerStep (st : DealerState) (jt : DealerJobM × PairRandomness F) : DealerState :=
  (handle_request st jt.1 jt.2).1

/-- Run a sequence of submitted jobs (each with the tape its pairing would
consume) against the initial empty, unpoisoned dealer state. -/
def runJobs (l : List (DealerJobM × PairRandomness F)) : DealerState :=
  l.foldl dealerStep ⟨false, []⟩

/-- The number of jobs in a sequence carrying a given request ID. -/
def countRid (R : Nat) (l : List (DealerJobM × PairRandomness F)) : Nat :=
  l.countP (fun jt => decide (jt.1.request_id = R))

/-- Outcome of the second of two submissions against a fresh dealer: job `j1`
(tape `ρ1`) is submitted first, then job `j2` (tape `ρ2`). -/
def pairOutcome (j1 j2 : DealerJobM) (ρ1 ρ2 : PairRandomness F) : DealerOutcome F :=
  (handle_request (handle_request (F := F) ⟨false, []⟩ j1 ρ1).1 j2 ρ2).2

/-- The response delivered to party `p` in a two-submission exchange, given
which job arrived first: `handle_ready_pair`'s first response goes to the
first-arrived job's channel and the second to the later job's channel. -/
def responseForParty (first second : DealerJobM) (o : DealerOutcome F) (p : Nat) :
    Option (DealerResponse F) :=
  match o with
  | .paired rFirst rSecond =>
    if first.party_id = p then some rFirst
    else if second.party_id = p then some rSecond
    else none
  | _ => none

/-- Errors surfaced by the admission layer (main.rs): `BadRequestError` and
`UnauthorizedError`, with their messages. -/
inductive RejectionError where
  | badRequest (msg : String)
  | unauthorized (msg : String)
deriving DecidableEq

/-- Model of `validate_request` (main.rs): size cap, party-ID domain check, then
signature verification. The ECDSA verification of the external `k256`
library is abstracted by the boolean `sig_valid`. -/
def validate_request (party_id : Nat) (sig_valid : Bool) (body : DealerRequest) :
    Option RejectionError :=
  if MAX_REQUEST_SIZE < total_values body then some (.badRequest "Request size too large")
  else if ¬(party_id = 0 ∨ party_id = 1) then some (.badRequest "Invalid party ID")
  else if ¬sig_valid then some (.unauthorized "Invalid signature")
  else none

/-- Model of `handle_req` (main.rs): validate, and only on success construct the
`DealerJob` and enqueue it to the dealer (`.ok` is the enqueued job; an
`.error` short-circuits before the pairing engine sees anything). -/
def handle_req (request_id party_id : Nat) (sig_valid : Bool) (body : DealerRequest) :
    Except RejectionError DealerJobM :=
  match validate_request party_id sig_valid body with
  | some e => .error e
  | none => .ok ⟨request_id, party_id, body⟩

/-- The per-index MAC-authentication invariant between two parties' share
vectors: the mac shares at each index sum to the opened value times `K`. -/
def macAuthenticated (K : F) (s1 s2 : List (ScalarShare F)) : Prop :=
  ∀ (i : Nat) (h1 : i < s1.length) (h2 : i < s2.length),
    s1[i].mac + s2[i].mac = (s1[i].share + s2[i].share) * K

/-- Primality of the modulus of the concrete witness field. -/
instance : Fact (Nat.Prime 5) := ⟨by norm_num⟩

/-- Concrete witness field standing in for the BN254 scalar field. -/
abbrev F5 : Type := ZMod 5

/-- All-zero dealer request used by the concrete engine scenarios. -/
def reqZero : DealerRequest := ⟨0, 0, 0, 0, 0, 0, 0⟩

/-- Request differing from `reqZero` only in `n_triples`. -/
def reqTriple : DealerRequest := ⟨0, 0, 0, 0, 0, 0, 1⟩

/-- Request asking for one value of each primitive family. -/
def reqW : DealerRequest := ⟨0, 0, 1, 1, 1, 1, 1⟩

/-- Request whose counts sum exactly to `MAX_REQUEST_SIZE`. -/
def reqMax : DealerRequest := ⟨0, 0, 1500000, 0, 0, 0, 0⟩

/-- Request whose counts sum to `MAX_REQUEST_SIZE + 1`. -/
def reqOver : DealerRequest := ⟨0, 0, 1500001, 0, 0, 0, 0⟩

/-- Request whose counts mathematically sum to `2 ^ 32`, so that u32
addition wraps to `0`. -/
def reqWrap : DealerRequest := ⟨0, 0, 2147483648, 2147483648, 0, 0, 0⟩

/-- Randomness tape with empty streams, sufficient for `reqZero`. -/
def trivTape : PairRandomness F5 :=
  ⟨3, 1, [], [], [], [], [], [], [], [], [], [], [], [],
   [], [], [], [], [], [], [], [], [], [], [], [], []⟩

/-- Randomness tape with one draw per stream, sufficient for `reqW`; the
inverse-pair draw is the nonzero scalar `2`. -/
def tapeW : PairRandomness F5 :=
  ⟨3, 1, [true], [2], [4], [2], [1], [3], [4], [2], [1], [0], [3], [2],
   [2], [1], [4], [0], [2], [2], [4], [1], [2], [3], [0], [2], [1]⟩

/-- The concrete response pair generated for `reqW` from `tapeW`. -/
def pairW : DealerResponse F5 × DealerResponse F5 :=
  (handle_ready_pair reqW tapeW).getD (emptyResponse, emptyResponse)

/-- The concrete response pair generated for `reqZero` from `trivTape`. -/
def pairZ : DealerResponse F5 × DealerResponse F5 :=
  (handle_ready_pair reqZero trivTape).getD (emptyResponse, emptyResponse)

/-- Concrete job: request ID 3, party 0, the all-zero request. -/
def jobA : DealerJobM := ⟨3, 0, reqZero⟩

/-- Counterpart of `jobA` from party 1. -/
def jobB : DealerJobM := ⟨3, 1, reqZero⟩

/-- A job under a different request ID. -/
def jobC : DealerJobM := ⟨9, 0, reqZero⟩

/-- Job sequence in which request ID 3 is submitted three times. -/
def jobsReplay : List (DealerJobM × PairRandomness F5) :=
  [(jobA, trivTape), (jobB, trivTape), (jobA, trivTape)]

/-- Job sequence in which request ID 3 is submitted exactly twice. -/
def jobsTwice : List (DealerJobM × PairRandomness F5) :=
  [(jobA, trivTape), (jobB, trivTape), (jobC, trivTape)]

/-- Both outputs of the share builder have the same length. -/
theorem gass_length_eq (mac_key : F) (values vrand mrand : List F) :
    (gen_authenticated_secret_shares mac_key values vrand mrand).2.length
      = (gen_authenticated_secret_shares mac_key values vrand mrand).1.length := by
  simp [gen_authenticated_secret_shares, collect_shares, gen_secret_shares, compute_macs]

/-- Pointwise opening of the share builder: at every index of the two output
vectors the value shares sum to the input value and the mac shares sum to
the input value times the mac key. -/
theorem gass_getElem (mac_key : F) (values vrand mrand : List F) (i : Nat)
    (h1 : i < (gen_authenticated_secret_shares mac_key values vrand mrand).1.length)
    (h2 : i < (gen_authenticated_secret_shares mac_key values vrand mrand).2.length) :
    ∃ hv : i < values.length,
      (gen_authenticated_secret_shares mac_key values vrand mrand).1[i].share
        + (gen_authenticated_secret_shares mac_key values vrand mrand).2[i].share
        = values[i]
      ∧ (gen_authenticated_secret_shares mac_key values vrand mrand).1[i].mac
        + (gen_authenticated_secret_shares mac_key values vrand mrand).2[i].mac
        = values[i] * mac_key := by
  have hb : i < values.length ∧ i < vrand.length ∧ i < mrand.length := by
    simp only [gen_authenticated_secret_shares, collect_shares, gen_secret_shares,
      compute_macs, List.length_zipWith, List.length_map, lt_min_iff] at h1
    exact ⟨h1.1.1, h1.1.2, h1.2.2⟩
  obtain ⟨hv, hr, hm⟩ := hb
  refine ⟨hv, ?_, ?_⟩ <;>
    simp [gen_authenticated_secret_shares, collect_shares, gen_secret_shares,
      compute_macs, List.getElem_zipWith, List.getElem_map]

/-- The share builder satisfies the MAC-authentication invariant under its
own mac key. -/
theorem gass_macAuthenticated (mac_key : F) (values vrand mrand : List F) :
    macAuthenticated mac_key
      (gen_authenticated_secret_shares mac_key values vrand mrand).1
      (gen_authenticated_secret_shares mac_key values vrand mrand).2 := by
  intro i h1 h2
  obtain ⟨hv, hshare, hmac⟩ := gass_getElem mac_key values vrand mrand i h1 h2
  rw [hmac, hshare]

/-- Inversion of `handle_ready_pair`: a `some` result means no drawn
inverse-pair value was zero, and exposes both responses as the share-builder
outputs of the five generators. -/
theorem handle_ready_pair_inv (req : DealerRequest) (ρ : PairRandomness F)
    (r1 r2 : DealerResponse F)
    (h : handle_ready_pair req ρ = some (r1, r2)) :
    (ρ.invDraws.take req.n_inverse_pairs).any (fun x => decide (x = 0)) = false
    ∧ r1 = { mac_key_share := ρ.mac_share1,
             random_bits :=
               (gen_random_bits req.n_random_bits ρ.mac_key ρ.bitDraws ρ.bitV ρ.bitM).1,
             random_values :=
               (gen_random_values req.n_random_values ρ.mac_key ρ.valDraws ρ.valV ρ.valM).1,
             input_masks :=
               (gen_input_masks req.n_input_masks ρ.mac_key ρ.mask1Draws ρ.mask2Draws
                 ρ.mask1V ρ.mask1M ρ.mask2V ρ.mask2M).1,
             inverse_pairs :=
               ((gen_authenticated_secret_shares ρ.mac_key
                   (ρ.invDraws.take req.n_inverse_pairs) ρ.invV ρ.invM).1,
                (gen_authenticated_secret_shares ρ.mac_key
                   ((ρ.invDraws.take req.n_inverse_pairs).map (fun x => x⁻¹))
                   ρ.invInvV ρ.invInvM).1),
             beaver_triples :=
               (gen_triples req.n_triples ρ.mac_key ρ.tripADraws ρ.tripBDraws
                 ρ.tripAV ρ.tripAM ρ.tripBV ρ.tripBM ρ.tripCV ρ.tripCM).1 }
    ∧ r2 = { mac_key_share := ρ.mac_key - ρ.mac_share1,
             random_bits :=
               (gen_random_bits req.n_random_bits ρ.mac_key ρ.bitDraws ρ.bitV ρ.bitM).2,
             random_values :=
               (gen_random_values req.n_random_values ρ.mac_key ρ.valDraws ρ.valV ρ.valM).2,
             input_masks :=
               (gen_input_masks req.n_input_masks ρ.mac_key ρ.mask1Draws ρ.mask2Draws
                 ρ.mask1V ρ.mask1M ρ.mask2V ρ.mask2M).2,
             inverse_pairs :=
               ((gen_authenticated_secret_shares ρ.mac_key
                   (ρ.invDraws.take req.n_inverse_pairs) ρ.invV ρ.invM).2,
                (gen_authenticated_secret_shares ρ.mac_key
                   ((ρ.invDraws.take req.n_inverse_pairs).map (fun x => x⁻¹))
                   ρ.invInvV ρ.invInvM).2),
             beaver_triples :=
               (gen_triples req.n_triples ρ.mac_key ρ.tripADraws ρ.tripBDraws
                 ρ.tripAV ρ.tripAM ρ.tripBV ρ.tripBM ρ.tripCV ρ.tripCM).2 } := by
  unfold handle_ready_pair at h
  split at h
  · exact absurd h (by simp)
  · rename_i invp hgi
    unfold gen_inverse_pairs at hgi
    split at hgi
    · exact absurd hgi (by simp)
    · rename_i hz
      simp only [Bool.not_eq_true] at hz
      simp only [Option.some.injEq] at hgi
      subst hgi
      simp only [Option.some.injEq, Prod.mk.injEq] at h
      exact ⟨hz, h.1.symm, h.2.symm⟩

/-- C1: for every valid pair of requests handled by `handle_ready_pair` and
every primitive family (random bits, random values, input masks — in both
cross-party pairings — inverse pairs, Beaver triples) and every index, the
two parties' MAC shares sum to the opened value times the reconstructed MAC
key `mac_key_share₁ + mac_key_share₂`. -/
theorem C1_mac_authentication (req : DealerRequest) (ρ : PairRandomness F)
    (r1 r2 : DealerResponse F)
    (h : handle_ready_pair req ρ = some (r1, r2)) :
    macAuthenticated (r1.mac_key_share + r2.mac_key_share) r1.random_bits r2.random_bits
    ∧ macAuthenticated (r1.mac_key_share + r2.mac_key_share) r1.random_values r2.random_values
    ∧ macAuthenticated (r1.mac_key_share + r2.mac_key_share) r1.input_masks.2.1 r2.input_masks.2.2
    ∧ macAuthenticated (r1.mac_key_share + r2.mac_key_share) r1.input_masks.2.2 r2.input_masks.2.1
    ∧ macAuthenticated (r1.mac_key_share + r2.mac_key_share) r1.inverse_pairs.1 r2.inverse_pairs.1
    ∧ macAuthenticated (r1.mac_key_share + r2.mac_key_share) r1.inverse_pairs.2 r2.inverse_pairs.2
    ∧ macAuthenticated (r1.mac_key_share + r2.mac_key_share) r1.beaver_triples.1 r2.beaver_triples.1
    ∧ macAuthenticated (r1.mac_key_share + r2.mac_key_share) r1.beaver_triples.2.1 r2.beaver_triples.2.1
    ∧ macAuthenticated (r1.mac_key_share + r2.mac_key_share) r1.beaver_triples.2.2 r2.beaver_triples.2.2 := by
  obtain ⟨hz, e1, e2⟩ := handle_ready_pair_inv req ρ r1 r2 h
  subst e1
  subst e2
  have hK : ρ.mac_share1 + (ρ.mac_key - ρ.mac_share1) = ρ.mac_key := by ring
  dsimp only
  rw [hK]
  simp only [gen_random_bits, gen_random_values, gen_input_masks, gen_triples]
  exact ⟨gass_macAuthenticated _ _ _ _, gass_macAuthenticated _ _ _ _,
    gass_macAuthenticated _ _ _ _, gass_macAuthenticated _ _ _ _,
    gass_macAuthenticated _ _ _ _, gass_macAuthenticated _ _ _ _,
    gass_macAuthenticated _ _ _ _, gass_macAuthenticated _ _ _ _,
    gass_macAuthenticated _ _ _ _⟩

/-- C6: for every valid pair and every index of the generated random bits,
the opened value `share₁ + share₂` is the scalar `0` or the scalar `1`. -/
theorem C6_bit_domain (req : DealerRequest) (ρ : PairRandomness F)
    (r1 r2 : DealerResponse F)
    (h : handle_ready_pair req ρ = some (r1, r2)) :
    ∀ (i : Nat) (h1 : i < r1.random_bits.length) (h2 : i < r2.random_bits.length),
      r1.random_bits[i].share + r2.random_bits[i].share = 0
      ∨ r1.random_bits[i].share + r2.random_bits[i].share = 1 := by
  obtain ⟨hz, e1, e2⟩ := handle_ready_pair_inv req ρ r1 r2 h
  subst e1
  subst e2
  intro i h1 h2
  dsimp only at h1 h2 ⊢
  simp only [gen_random_bits] at h1 h2 ⊢
  obtain ⟨hv, hshare, -⟩ := gass_getElem ρ.mac_key _ ρ.bitV ρ.bitM i h1 h2
  have hv2 : i < (ρ.bitDraws.take req.n_random_bits).length := by simpa using hv
  rw [hshare]
  simp only [List.getElem_map]
  by_cases hb : (ρ.bitDraws.take req.n_random_bits)[i] = true
  · right
    rw [if_pos hb]
  · left
    rw [if_neg hb]

/-- C4: for every valid pair and every index of the generated inverse pairs,
opening both vectors yields multiplicative inverses:
`(r₁ + r₂) * (r_inv₁ + r_inv₂) = 1`. A zero draw makes the source panic
before any response is produced, so a delivered pair has only nonzero
draws. -/
theorem C4_inverse_pairs (req : DealerRequest) (ρ : PairRandomness F)
    (r1 r2 : DealerResponse F)
    (h : handle_ready_pair req ρ = some (r1, r2)) :
    ∀ (i : Nat) (h1 : i < r1.inverse_pairs.1.length) (h2 : i < r2.inverse_pairs.1.length)
      (h3 : i < r1.inverse_pairs.2.length) (h4 : i < r2.inverse_pairs.2.length),
      (r1.inverse_pairs.1[i].share + r2.inverse_pairs.1[i].share)
        * (r1.inverse_pairs.2[i].share + r2.inverse_pairs.2[i].share) = 1 := by
  obtain ⟨hz, e1, e2⟩ := handle_ready_pair_inv req ρ r1 r2 h
  subst e1
  subst e2
  intro i h1 h2 h3 h4
  dsimp only at h1 h2 h3 h4 ⊢
  obtain ⟨hv, hshare1, -⟩ :=
    gass_getElem ρ.mac_key (ρ.invDraws.take req.n_inverse_pairs) ρ.invV ρ.invM i h1 h2
  obtain ⟨hv2, hshare2, -⟩ :=
    gass_getElem ρ.mac_key ((ρ.invDraws.take req.n_inverse_pairs).map (fun x => x⁻¹))
      ρ.invInvV ρ.invInvM i h3 h4
  rw [hshare1, hshare2]
  simp only [List.getElem_map]
  have hne : (ρ.invDraws.take req.n_inverse_pairs)[i] ≠ 0 := by
    simp only [List.any_eq_false, decide_eq_true_eq] at hz
    exact hz _ (List.getElem_mem _)
  exact mul_inv_cancel₀ hne

/-- C5: for every valid pair and every index of the generated Beaver
triples, the opened values satisfy `(a₁ + a₂) * (b₁ + b₂) = c₁ + c₂`. -/
theorem C5_beaver_triples (req : DealerRequest) (ρ : PairRandomness F)
    (r1 r2 : DealerResponse F)
    (h : handle_ready_pair req ρ = some (r1, r2)) :
    ∀ (i : Nat) (ha1 : i < r1.beaver_triples.1.length) (ha2 : i < r2.beaver_triples.1.length)
      (hb1 : i < r1.beaver_triples.2.1.length) (hb2 : i < r2.beaver_triples.2.1.length)
      (hc1 : i < r1.beaver_triples.2.2.length) (hc2 : i < r2.beaver_triples.2.2.length),
      (r1.beaver_triples.1[i].share + r2.beaver_triples.1[i].share)
        * (r1.beaver_triples.2.1[i].share + r2.beaver_triples.2.1[i].share)
        = r1.beaver_triples.2.2[i].share + r2.beaver_triples.2.2[i].share := by
  obtain ⟨hz, e1, e2⟩ := handle_ready_pair_inv req ρ r1 r2 h
  subst e1
  subst e2
  intro i ha1 ha2 hb1 hb2 hc1 hc2
  dsimp only at ha1 ha2 hb1 hb2 hc1 hc2 ⊢
  simp only [gen_triples] at ha1 ha2 hb1 hb2 hc1 hc2 ⊢
  obtain ⟨hva, hsa, -⟩ :=
    gass_getElem ρ.mac_key (ρ.tripADraws.take req.n_triples) ρ.tripAV ρ.tripAM i ha1 ha2
  obtain ⟨hvb, hsb, -⟩ :=
    gass_getElem ρ.mac_key (ρ.tripBDraws.take req.n_triples) ρ.tripBV ρ.tripBM i hb1 hb2
  obtain ⟨hvc, hsc, -⟩ :=
    gass_getElem ρ.mac_key
      (List.zipWith (fun a b => a * b) (ρ.tripADraws.take req.n_triples)
        (ρ.tripBDraws.take req.n_triples)) ρ.tripCV ρ.tripCM i hc1 hc2
  rw [hsa, hsb, hsc]
  simp only [List.getElem_zipWith]

/-- C7: for every valid pair, the cleartext input-mask vector delivered to
each party equals, at every index, the opening of that party's `own_shares`
against the other party's `counterparty_shares`. -/
theorem C7_input_masks (req : DealerRequest) (ρ : PairRandomness F)
    (r1 r2 : DealerResponse F)
    (h : handle_ready_pair req ρ = some (r1, r2)) :
    (∀ (i : Nat) (hc : i < r1.input_masks.1.length) (h1 : i < r1.input_masks.2.1.length)
        (h2 : i < r2.input_masks.2.2.length),
        r1.input_masks.2.1[i].share + r2.input_masks.2.2[i].share = r1.input_masks.1[i])
    ∧ (∀ (i : Nat) (hc : i < r2.input_masks.1.length) (h1 : i < r2.input_masks.2.1.length)
        (h2 : i < r1.input_masks.2.2.length),
        r2.input_masks.2.1[i].share + r1.input_masks.2.2[i].share = r2.input_masks.1[i]) := by
  obtain ⟨hz, e1, e2⟩ := handle_ready_pair_inv req ρ r1 r2 h
  subst e1
  subst e2
  constructor
  · intro i hc h1 h2
    dsimp only at hc h1 h2 ⊢
    simp only [gen_input_masks] at hc h1 h2 ⊢
    obtain ⟨hv, hshare, -⟩ :=
      gass_getElem ρ.mac_key (ρ.mask1Draws.take req.n_input_masks) ρ.mask1V ρ.mask1M i h1 h2
    exact hshare
  · intro i hc h1 h2
    dsimp only at hc h1 h2 ⊢
    simp only [gen_input_masks] at hc h1 h2 ⊢
    obtain ⟨hv, hshare, -⟩ :=
      gass_getElem ρ.mac_key (ρ.mask2Draws.take req.n_input_masks) ρ.mask2V ρ.mask2M i h2 h1
    rw [add_comm]
    exact hshare

/-- Erasing one key leaves membership of any other key unchanged. -/
theorem containsReq_eraseReq_ne (m : List (Nat × DealerJobM)) (k R : Nat) (hne : R ≠ k) :
    containsReq (eraseReq m k) R = containsReq m R := by
  induction m with
  | nil => rfl
  | cons p t ih =>
    by_cases hp : p.1 = k
    · have hpR : decide (p.1 = R) = false := by
        simp only [decide_eq_false_iff_not]
        intro hR
        exact hne (hR ▸ hp)
      have hdrop : (!decide (p.1 = k)) = false := by simp [hp]
      simp only [containsReq, eraseReq, List.filter_cons, hdrop, Bool.false_eq_true,
        if_false, List.any_cons, hpR, Bool.false_or]
      simpa only [containsReq, eraseReq] using ih
    · have hkeep : (!decide (p.1 = k)) = true := by simp [hp]
      simp only [containsReq, eraseReq, List.filter_cons, hkeep, if_true, List.any_cons]
      have ih2 := ih
      simp only [containsReq, eraseReq] at ih2
      rw [ih2]

/-- A `handle_request` call whose job carries a different request ID leaves
membership of `R` in the open-requests map unchanged. -/
theorem handle_request_contains_ne (st : DealerState) (j : DealerJobM)
    (ρ : PairRandomness F) (R : Nat) (hne : j.request_id ≠ R) :
    containsReq (handle_request st j ρ).1.open_requests R
      = containsReq st.open_requests R := by
  have hRne : R ≠ j.request_id := fun hR => hne hR.symm
  unfold handle_request
  split
  · rfl
  · split
    · split
      · split
        · simp [containsReq_eraseReq_ne _ _ _ hRne]
        · split
          · simp [containsReq_eraseReq_ne _ _ _ hRne]
          · simp [containsReq_eraseReq_ne _ _ _ hRne]
      · simp [containsReq_eraseReq_ne _ _ _ hRne]
    · simp [containsReq, insertReq, hne]

/-- Membership after a `handle_request` call implies membership before it or
a job carrying that request ID. -/
theorem handle_request_contains_imp (st : DealerState) (j : DealerJobM)
    (ρ : PairRandomness F) (R : Nat)
    (h : containsReq (handle_request st j ρ).1.open_requests R = true) :
    containsReq st.open_requests R = true ∨ j.request_id = R := by
  by_cases hne : j.request_id = R
  · exact Or.inr hne
  · rw [handle_request_contains_ne st j ρ R hne] at h
    exact Or.inl h

/-- Membership of `R` after folding a job sequence implies membership in the
initial state or the presence of at least one job carrying `R`. -/
theorem foldl_contains_imp (R : Nat) (l : List (DealerJobM × PairRandomness F))
    (st : DealerState)
    (h : containsReq (l.foldl dealerStep st).open_requests R = true) :
    containsReq st.open_requests R = true ∨ 1 ≤ countRid R l := by
  induction l generalizing st with
  | nil => exact Or.inl h
  | cons jt t ih =>
    rcases ih (dealerStep st jt) h with hc | hcount
    · rcases handle_request_contains_imp st jt.1 jt.2 R hc with hc2 | hrid
      · exact Or.inl hc2
      · refine Or.inr ?_
        simp [countRid, List.countP_cons, hrid]
    · refine Or.inr ?_
      simp only [countRid, List.countP_cons] at hcount ⊢
      omega

/-- Counting jobs with a given request ID distributes over append. -/
theorem countRid_append (R : Nat) (x y : List (DealerJobM × PairRandomness F)) :
    countRid R (x ++ y) = countRid R x + countRid R y := by
  simp [countRid, List.countP_append]

/-- Prefix counts of jobs with a given request ID are monotone. -/
theorem countRid_take_le (R : Nat) (l : List (DealerJobM × PairRandomness F))
    (a b : Nat) (hab : a ≤ b) :
    countRid R (l.take a) ≤ countRid R (l.take b) := by
  have hsplit : l.take b = l.take a ++ (l.drop a).take (b - a) := by
    rw [← List.take_add]
    congr 1
    omega
  rw [hsplit, countRid_append]
  omega

/-- Every prefix count is at most the total count. -/
theorem countRid_take_le_total (R : Nat) (l : List (DealerJobM × PairRandomness F))
    (a : Nat) : countRid R (l.take a) ≤ countRid R l := by
  rcases Nat.le_total a l.length with h | h
  · have hle := countRid_take_le R l a l.length h
    rwa [List.take_length] at hle
  · rw [List.take_of_length_le h]

/-- Taking one more element appends it as a singleton. -/
theorem take_succ_append (l : List (DealerJobM × PairRandomness F)) (m : Nat)
    (hm : m < l.length) : l.take (m + 1) = l.take m ++ [l[m]] := by
  rw [List.take_succ]
  simp [List.getElem?_eq_getElem hm]

/-- Running one more job is one `dealerStep` on the previous prefix. -/
theorem runJobs_take_succ (l : List (DealerJobM × PairRandomness F)) (m : Nat)
    (hm : m < l.length) :
    runJobs (l.take (m + 1)) = dealerStep (runJobs (l.take m)) l[m] := by
  rw [runJobs, runJobs, take_succ_append l m hm, List.foldl_append]
  rfl

/-- Prefix count after one more job. -/
theorem countRid_take_succ (R : Nat) (l : List (DealerJobM × PairRandomness F))
    (m : Nat) (hm : m < l.length) :
    countRid R (l.take (m + 1))
      = countRid R (l.take m) + (if l[m].1.request_id = R then 1 else 0) := by
  rw [take_succ_append l m hm, countRid_append]
  congr 1
  simp [countRid, List.countP_cons]

/-- C9 counterexample: in the job sequence `jobsReplay` the key 3 is present
after one submission, removed by the matching counterpart, and reinserted by
a third submission with the same request ID — refuting the claim that a
removed key is never reinserted. -/
theorem C9_counterexample :
    containsReq (runJobs (jobsReplay.take 1)).open_requests 3 = true
    ∧ containsReq (runJobs (jobsReplay.take 2)).open_requests 3 = false
    ∧ containsReq (runJobs jobsReplay).open_requests 3 = true := by
  refine ⟨by decide, by decide, by decide⟩

/-- C9 (amended): for every job sequence in which at most two jobs carry a
given request ID, once that key is removed from the open-requests map it is
never reinserted by a later submission. -/
theorem C9_no_reinsert (l : List (DealerJobM × PairRandomness F)) (R k m : Nat)
    (htotal : countRid R l ≤ 2) (hkm : k < m)
    (hin : containsReq (runJobs (l.take k)).open_requests R = true)
    (hout : containsReq (runJobs (l.take (k + 1))).open_requests R = false) :
    containsReq (runJobs (l.take m)).open_requests R = false := by
  have hkl : k < l.length := by
    by_contra hk
    push_neg at hk
    rw [List.take_of_length_le hk] at hin
    rw [List.take_of_length_le (le_trans hk (by omega))] at hout
    rw [hin] at hout
    exact Bool.noConfusion hout
  have hjk : l[k].1.request_id = R := by
    by_contra hne
    rw [runJobs_take_succ l k hkl, dealerStep,
      handle_request_contains_ne _ _ _ R hne, hin] at hout
    exact Bool.noConfusion hout
  have hck : 1 ≤ countRid R (l.take k) := by
    have hfold := foldl_contains_imp R (l.take k) ⟨false, []⟩ (by rw [← runJobs]; exact hin)
    rcases hfold with hc | hc
    · exact absurd hc (by simp [containsReq])
    · exact hc
  have hck1 : 2 ≤ countRid R (l.take (k + 1)) := by
    rw [countRid_take_succ R l k hkl, if_pos hjk]
    omega
  have main : ∀ d, containsReq (runJobs (l.take (k + 1 + d))).open_requests R = false := by
    intro d
    induction d with
    | zero => exact hout
    | succ d ihd =>
      by_cases hlen : k + 1 + d < l.length
      · have hstep : k + 1 + (d + 1) = (k + 1 + d) + 1 := by omega
        rw [hstep, runJobs_take_succ l (k + 1 + d) hlen, dealerStep]
        by_cases hne : l[k + 1 + d].1.request_id = R
        · exfalso
          have h3 : 3 ≤ countRid R (l.take (k + 1 + d + 1)) := by
            rw [countRid_take_succ R l (k + 1 + d) hlen, if_pos hne]
            have hmono := countRid_take_le R l (k + 1) (k + 1 + d) (by omega)
            omega
          have h4 := countRid_take_le_total R l (k + 1 + d + 1)
          omega
        · rw [handle_request_contains_ne _ _ _ R hne]
          exact ihd
      · push_neg at hlen
        have e1 : l.take (k + 1 + (d + 1)) = l := List.take_of_length_le (by omega)
        have e2 : l.take (k + 1 + d) = l := List.take_of_length_le hlen
        rw [e1, ← e2]
        exact ihd
  have hm2 : m = k + 1 + (m - k - 1) := by omega
  rw [hm2]
  exact main (m - k - 1)

/-- C9 witness: a concrete three-job sequence in which request ID 3 appears
exactly twice; after the pairing removed the key at step 2, it is still
absent after the third (different-ID) submission. -/
theorem C9_no_reinsert_witness :
    containsReq (runJobs (jobsTwice.take 3)).open_requests 3 = false :=
  C9_no_reinsert jobsTwice 3 1 3 (by decide) (by decide) (by decide) (by decide)

/-- C2: evaluation at the failing input. With `jobA` (request ID 3, party 0,
body `reqZero`) stored, the arrival of a party-1 job with the same request
ID but a different body (`reqTriple`) makes `handle_request` hit the
`assert_eq!` panic: the stored job is removed and the mutex is poisoned, but
the outcome is `mismatchPanic` — neither party's channel receives a
`BadRequest` error, contradicting the claim (and spec B5). -/
theorem C2_mismatch_eval :
    handle_request (handle_request ⟨false, []⟩ jobA trivTape).1 ⟨3, 1, reqTriple⟩ trivTape
      = (⟨true, []⟩, DealerOutcome.mismatchPanic) := by
  decide

/-- C3 counterexample: with identical randomness and identical request
bodies, swapping only the arrival order changes which response party 0
receives — so the party-to-response assignment depends on arrival order,
refuting the claim that it is determined by party ID alone. -/
theorem C3_counterexample :
    responseForParty jobA jobB (pairOutcome jobA jobB trivTape trivTape) 0
      ≠ responseForParty jobB jobA (pairOutcome jobB jobA trivTape trivTape) 0 := by
  decide

/-- C3 (amended): for every valid pair, the response each party receives is
determined by arrival order, not by party ID: the first-arrived job's
channel receives the first generated response and the later job's channel
the second, whatever the two party IDs are. -/
theorem C3_arrival_order (j1 j2 : DealerJobM) (ρ1 ρ2 : PairRandomness F)
    (r1 r2 : DealerResponse F)
    (hrid : j1.request_id = j2.request_id)
    (hreq : j1.request = j2.request)
    (hpid : j1.party_id ≠ j2.party_id)
    (hgen : handle_ready_pair j1.request ρ2 = some (r1, r2)) :
    pairOutcome j1 j2 ρ1 ρ2 = DealerOutcome.paired r1 r2 := by
  obtain ⟨rid1, pid1, req1⟩ := j1
  obtain ⟨rid2, pid2, req2⟩ := j2
  simp only at hrid hreq hpid hgen
  subst hrid
  subst hreq
  simp [pairOutcome, handle_request, lookupReq, insertReq, List.find?, hpid, hgen]

/-- C3 witness: the amended arrival-order theorem applied to the concrete
jobs `jobA`, `jobB` and the trivial tape. -/
theorem C3_arrival_order_witness :
    pairOutcome jobA jobB trivTape trivTape = DealerOutcome.paired pairZ.1 pairZ.2 :=
  C3_arrival_order jobA jobB trivTape trivTape pairZ.1 pairZ.2 rfl rfl (by decide) rfl

/-- C8: admission accepts a request whose `total_values` equals
`MAX_REQUEST_SIZE` (enqueueing the job, given a legal party ID and a valid
signature) and rejects one whose `total_values` equals
`MAX_REQUEST_SIZE + 1` with `BadRequest("Request size too large")` without
enqueueing a job. -/
theorem C8_admission_boundary (request_id party_id : Nat) (sig_valid : Bool)
    (body : DealerRequest) :
    (total_values body = MAX_REQUEST_SIZE → (party_id = 0 ∨ party_id = 1) →
      sig_valid = true →
      handle_req request_id party_id sig_valid body = .ok ⟨request_id, party_id, body⟩)
    ∧ (total_values body = MAX_REQUEST_SIZE + 1 →
      handle_req request_id party_id sig_valid body
        = .error (.badRequest "Request size too large")) := by
  constructor
  · intro h hp hs
    subst hs
    rcases hp with hp | hp <;> subst hp <;>
      simp [handle_req, validate_request, h, MAX_REQUEST_SIZE]
  · intro h
    simp [handle_req, validate_request, h, MAX_REQUEST_SIZE]

/-- C8 witness: the boundary theorem applied to concrete requests whose
counts sum to exactly `MAX_REQUEST_SIZE` and `MAX_REQUEST_SIZE + 1`. -/
theorem C8_admission_boundary_witness :
    handle_req 7 0 true reqMax = .ok ⟨7, 0, reqMax⟩
    ∧ handle_req 7 0 true reqOver = .error (.badRequest "Request size too large") :=
  ⟨(C8_admission_boundary 7 0 true reqMax).1 (by decide) (Or.inl rfl) rfl,
   (C8_admission_boundary 7 0 true reqOver).2 (by decide)⟩

/-- C10: `total_values` equals the sum of the five counts reduced modulo
`2 ^ 32`; in particular for `reqWrap`, whose true count sum is `2 ^ 32`, the
wrapped total is `0`, so the admission size check accepts it even though the
mathematical sum vastly exceeds `MAX_REQUEST_SIZE`. -/
theorem C10_total_values_wrap :
    (∀ r : DealerRequest,
      total_values r
        = (r.n_random_bits + r.n_random_values + r.n_input_masks + r.n_inverse_pairs
            + r.n_triples) % U32)
    ∧ U32 ≤ reqWrap.n_random_bits + reqWrap.n_random_values + reqWrap.n_input_masks
        + reqWrap.n_inverse_pairs + reqWrap.n_triples
    ∧ total_values reqWrap = 0
    ∧ validate_request 0 true reqWrap = none := by
  refine ⟨fun r => ?_, by decide, by decide, by decide⟩
  simp [total_values, u32add, Nat.mod_add_mod]

/-- The concrete generation for `reqW` and `tapeW` succeeds and produces
exactly the components of `pairW`. -/
theorem pairW_spec : handle_ready_pair reqW tapeW = some (pairW.1, pairW.2) := by
  rfl

/-- C1 witness: the MAC relation instantiated for the random-bit family of
the concrete pair generated from `reqW` and `tapeW`, at index 0. -/
theorem C1_mac_authentication_witness :
    (pairW.1.random_bits.get ⟨0, by decide⟩).mac
        + (pairW.2.random_bits.get ⟨0, by decide⟩).mac
      = ((pairW.1.random_bits.get ⟨0, by decide⟩).share
          + (pairW.2.random_bits.get ⟨0, by decide⟩).share)
        * (pairW.1.mac_key_share + pairW.2.mac_key_share) :=
  (C1_mac_authentication reqW tapeW pairW.1 pairW.2 pairW_spec).1 0 (by decide) (by decide)

/-- C4 witness: the inverse-pair relation instantiated for the concrete pair
generated from `reqW` and `tapeW`, at index 0. -/
theorem C4_inverse_pairs_witness :
    ((pairW.1.inverse_pairs.1.get ⟨0, by decide⟩).share
        + (pairW.2.inverse_pairs.1.get ⟨0, by decide⟩).share)
      * ((pairW.1.inverse_pairs.2.get ⟨0, by decide⟩).share
          + (pairW.2.inverse_pairs.2.get ⟨0, by decide⟩).share) = 1 :=
  C4_inverse_pairs reqW tapeW pairW.1 pairW.2 pairW_spec 0 (by decide) (by decide)
    (by decide) (by decide)

/-- C5 witness: the Beaver relation instantiated for the concrete pair
generated from `reqW` and `tapeW`, at index 0. -/
theorem C5_beaver_triples_witness :
    ((pairW.1.beaver_triples.1.get ⟨0, by decide⟩).share
        + (pairW.2.beaver_triples.1.get ⟨0, by decide⟩).share)
      * ((pairW.1.beaver_triples.2.1.get ⟨0, by decide⟩).share
          + (pairW.2.beaver_triples.2.1.get ⟨0, by decide⟩).share)
      = (pairW.1.beaver_triples.2.2.get ⟨0, by decide⟩).share
          + (pairW.2.beaver_triples.2.2.get ⟨0, by decide⟩).share :=
  C5_beaver_triples reqW tapeW pairW.1 pairW.2 pairW_spec 0 (by decide) (by decide)
    (by decide) (by decide) (by decide) (by decide)

/-- C6 witness: the bit-domain property instantiated for the concrete pair
generated from `reqW` and `tapeW`, at index 0. -/
theorem C6_bit_domain_witness :
    (pairW.1.random_bits.get ⟨0, by decide⟩).share
        + (pairW.2.random_bits.get ⟨0, by decide⟩).share = 0
    ∨ (pairW.1.random_bits.get ⟨0, by decide⟩).share
        + (pairW.2.random_bits.get ⟨0, by decide⟩).share = 1 :=
  C6_bit_domain reqW tapeW pairW.1 pairW.2 pairW_spec 0 (by decide) (by decide)

/-- C7 witness: the input-mask cross-link instantiated for the concrete pair
generated from `reqW` and `tapeW`, at index 0. -/
theorem C7_input_masks_witness :
    (pairW.1.input_masks.2.1.get ⟨0, by decide⟩).share
        + (pairW.2.input_masks.2.2.get ⟨0, by decide⟩).share
      = pairW.1.input_masks.1.get ⟨0, by decide⟩ :=
  (C7_input_masks reqW tapeW pairW.1 pairW.2 pairW_spec).1 0 (by decide) (by decide) (by decide)

end RenegadeDealer
